import Mathlib

/-!
# ntfy-notify: a shallow embedding of the relay and its checkpoint protocol

The development follows the three Go source files of the repository:

* `config/config.go`  : `LoadConfig` and the authorization header,
* `notifier/beeep.go` : `Notify`, the desktop notification sink,
* `main.go`           : `notify`, `fetchCachedMsg`, `readCache`, `writeCache`, the live
  read loop and the coordinator loop of `main`.

Everything outside the repository (file system, YAML and JSON decoders, HTTP client,
websocket connection, process execution) is a field of `Env`.  Go `error` values are
represented by their text, `none` standing for `nil`.  Calls to `slog` are recorded in a
trace with their level and message text; attributes are not recorded.
-/

namespace NtfyNotify

/-! ## Data model (`main.go`, lines 34-58; `config.go`, lines 14-35) -/

/-- Go `error`: `none` is `nil`, `some e` is an error whose text is `e`. -/
abbrev GoError := Option String

/-- The `Attachment` struct of `main.go`. -/
structure Attachment where
  Name : String
  Type_ : String
  Size : Int
  Url : String
deriving DecidableEq, Repr

set_option linter.dupNamespace false in
/-- The `Message` struct of `main.go`; `Time` is a `json.Number`, which is a string type. -/
structure Message where
  Id : String
  Time : String
  Event : String
  Topic : String
  Message : String
  Title : String
  Priority : Int
  Tags : List String
  Click : String
  Icon : String
  Attachment : Attachment
deriving DecidableEq, Repr

/-- The zero value of `Message` (what `var message Message` declares). -/
def zeroMessage : Message :=
  ⟨"", "", "", "", "", "", 0, [], "", "", ⟨"", "", 0, ""⟩⟩

/-- Go `http.Header`, a map from header name to its list of values. -/
abbrev Header := List (String × List String)

/-- The `config` struct of `config.go`. `KeepAlive` is an `int32`. -/
structure config where
  Endpoint : String
  Username : String
  Password : String
  Token : String
  Topics : String
  CacheDir : String
  UserAgent : String
  KeepAlive : Int
  FetchMissed : Bool
  Header : Header
deriving DecidableEq, Repr

/-- The package variable `Version` of `config.go`. -/
def Version : String := "dev"

/-- The initial value of the package variable `Config` of `config.go`. -/
def Config : config :=
  { Endpoint := "ntfy.sh:443"
    Username := ""
    Password := ""
    Token := ""
    Topics := "ntfy_notify_announcement,ntfy_notify_release"
    CacheDir := ""
    UserAgent := "ntfy-notify/" ++ Version
    KeepAlive := 300
    FetchMissed := true
    Header := [] }

/-- Severity of a recorded `slog` call. -/
inductive Level where
  | debug
  | info
  | error
deriving DecidableEq, Repr

/-- One recorded `slog` call. -/
structure LogEntry where
  level : Level
  msg : String
deriving DecidableEq, Repr

/-- The body of an HTTP response as `bufio.Scanner` presents it: the tokens that successive
`scanner.Scan()` calls yield, and the value of `scanner.Err()` once `Scan` returns false. -/
structure Response where
  lines : List String
  scanErr : GoError
deriving DecidableEq, Repr

/-- The three shapes of the pair `(resp, err)` that `client.Do` returns. -/
inductive DoResult where
  | ok (resp : Response)
  | fail (err : String)
  | failWithResponse (resp : Response) (err : String)
deriving DecidableEq, Repr

/-- The error of `os.ReadFile`; `notExist` is `errors.Is(err, os.ErrNotExist)`. -/
structure ReadError where
  notExist : Bool
  text : String
deriving DecidableEq, Repr

/-- The world outside the repository. The sink functions take the number of the sink call
(how many calls came before), so that every sequence of sink outcomes is an `Env`. -/
structure Env where
  /-- The result of `os.Open(configFile)`: its error. -/
  Open : String → GoError
  /-- The result of `yaml.NewDecoder(file).Decode(&Config)`: the overwritten value or the error. -/
  Decode : String → config → Except String config
  /-- The result of `os.UserCacheDir()`. -/
  UserCacheDir : Except String String
  /-- The function `filepath.Join` on two elements. -/
  Join : String → String → String
  /-- The result of `os.MkdirAll(path, 0700)`: its error. -/
  MkdirAll : String → GoError
  /-- The result of `os.ReadFile(path)`. -/
  ReadFile : String → Except ReadError String
  /-- The result of `os.WriteFile(path, data, 0644)`: its error. -/
  WriteFile : String → String → GoError
  /-- The result of `exec.LookPath(file)` during the n-th sink call. -/
  LookPath : Nat → String → Except String String
  /-- The result of `exec.Command(name, args...).Run()` during the n-th sink call. -/
  Run : Nat → String → List String → GoError
  /-- The result of `json.Unmarshal(line, &message)` on a zero `Message`. -/
  Unmarshal : String → Except String Message
  /-- The error of `http.NewRequest("GET", url, nil)`. -/
  NewRequest : String → GoError
  /-- The result of `client.Do(req)` for the request URL and header. -/
  Do : String → Header → DoResult
  /-- The method `String` of a `url.URL` with the given scheme, host and path. -/
  URLString : String → String → String → String
  /-- The error of `d.Dial(url, header)`. -/
  Dial : String → Header → GoError

/-- The package variables `lastOnline` and `lastId` of `main.go`, with the traces of the
observable calls: `slog` calls, calls of `notifier.Notify` (title, message) and calls of
`notify`. -/
structure State where
  lastOnline : String
  lastId : String
  log : List LogEntry
  sinkCalls : List (String × String)
  notifyCalls : List Message
deriving DecidableEq, Repr

/-- Record one `slog` call. -/
def State.slog (s : State) (level : Level) (msg : String) : State :=
  { s with log := s.log ++ [⟨level, msg⟩] }

/-- The state without its log: the checkpoint and the two call traces. -/
def State.dropLog (s : State) : State :=
  { s with log := [] }

/-! ## The notification sink (`notifier/beeep.go`) -/

/-- The function `Notify` of `notifier/beeep.go`, as the n-th sink call: look up
`sw-notify-send`, fall back to `notify-send`, run the command found. -/
def Notify (env : Env) (n : Nat) (title message : String) : GoError :=
  let cmd : GoError :=
    match env.LookPath n "sw-notify-send" with
    | .ok send => env.Run n send [title, message, "-a", "ntfy-notify"]
    | .error _ =>
      match env.LookPath n "notify-send" with
      | .ok send => env.Run n send [title, message, "-a", "ntfy-notify"]
      | .error err => some err
  match cmd with
  | some err => some err
  | none => none

/-! ## The dispatcher (`main.go`, lines 248-258) -/

/-- The function `notify` of `main.go`. The sink is called once, with the title and the
message body; the checkpoint is assigned only in the branch where the sink returned `nil`. -/
def notify (env : Env) (message : Message) (s : State) : State :=
  let s := s.slog .debug "notifying message"
  let s := { s with notifyCalls := s.notifyCalls ++ [message] }
  let err := Notify env s.sinkCalls.length message.Title message.Message
  let s := { s with sinkCalls := s.sinkCalls ++ [(message.Title, message.Message)] }
  match err with
  | some e =>
    let s := s.slog .error "failed to notify message"
    s.slog .debug e
  | none =>
    let s := { s with lastOnline := message.Time, lastId := message.Id }
    s.slog .debug "notified message"

/-! ## The gap-fill fetcher (`main.go`, lines 193-228) -/

/-- How a function ends: it returns, or a run-time panic unwinds it (which, in a goroutine
without `recover`, terminates the process). -/
inductive Outcome where
  | returned (s : State)
  | panicked (s : State) (reason : String)
deriving DecidableEq, Repr

/-- The state in which the function ended. -/
def Outcome.state : Outcome → State
  | .returned s => s
  | .panicked s _ => s

/-- Whether the function returned to its caller. -/
def Outcome.isReturned : Outcome → Bool
  | .returned _ => true
  | .panicked _ _ => false

/-- The URL that `fetchCachedMsg` requests (line 199). -/
def fetchURL (cfg : config) (lastOnline : String) : String :=
  "https://" ++ cfg.Endpoint ++ "/" ++ cfg.Topics ++ "/json?since=" ++ lastOnline ++ "&poll=1"

/-- One iteration of the scanner loop (lines 209-219) on the token `line`; the second
component is the local variable `count`. The comparison on line 215 reads the package
variable `lastId` as it is at that iteration. -/
def scanStep (env : Env) (acc : State × Nat) (line : String) : State × Nat :=
  match env.Unmarshal line with
  | .error e =>
    let s := acc.1.slog .error "failed to parse cached message"
    (s.slog .debug e, acc.2)
  | .ok message =>
    if message.Id != acc.1.lastId then
      (notify env message acc.1, acc.2 + 1)
    else
      acc

/-- The `else` branch of `fetchCachedMsg` (lines 207-224): scan the body line by line, then
report the scanner error if there is one. -/
def scanBody (env : Env) (resp : Response) (acc : State × Nat) : State × Nat :=
  let acc := resp.lines.foldl (scanStep env) acc
  match resp.scanErr with
  | some e =>
    let s := acc.1.slog .error "failed to fetch cached message"
    (s.slog .debug e, acc.2)
  | none => acc

/-- The function `fetchCachedMsg` of `main.go`. `http.NewRequest` returns a nil request with
its error, and the error is discarded (line 199), so line 200 assigns through a nil pointer
when it fails. `client.Do` returns a nil response with a transport error, and line 226
evaluates `resp.Body` after the `if`/`else`, whichever branch ran. -/
def fetchCachedMsg (env : Env) (cfg : config) (s : State) : Outcome :=
  let s := s.slog .info "fetching cached messages"
  let count := 0
  let url := fetchURL cfg s.lastOnline
  match env.NewRequest url with
  | some _ => .panicked s "invalid memory address or nil pointer dereference"
  | none =>
    match env.Do url cfg.Header with
    | .fail err =>
      let s := s.slog .error "failed to fetch cached message"
      let s := s.slog .debug err
      .panicked s "invalid memory address or nil pointer dereference"
    | .failWithResponse _ err =>
      let s := s.slog .error "failed to fetch cached message"
      let s := s.slog .debug err
      .returned (s.slog .info "fetched cached messages")
    | .ok resp =>
      let acc := scanBody env resp (s, count)
      .returned (acc.1.slog .info "fetched cached messages")

/-! ## Configuration (`config/config.go`) -/

/-- The bytes of a Go string (its UTF-8 encoding), as numbers below 256. -/
def bytes (s : String) : List Nat :=
  (s.data.flatMap String.utf8EncodeChar).map UInt8.toNat

/-- The alphabet of `base64.StdEncoding`. -/
def encodeStd : List Char :=
  "ABCDEFGHIJKLMNOPQRSTUVWXYZabcdefghijklmnopqrstuvwxyz0123456789+/".data

/-- The character of `base64.StdEncoding` for a 6-bit value. -/
def encodeChar (v : Nat) : Char :=
  encodeStd.getD (v % 64) 'A'

/-- The characters of `base64.StdEncoding.EncodeToString`: three bytes give four characters,
and a final group of one or two bytes is padded with `=`. -/
def encodeChars : List Nat → List Char
  | a :: b :: c :: rest =>
    let v := a * 65536 + b * 256 + c
    encodeChar (v / 262144) :: encodeChar (v / 4096) :: encodeChar (v / 64) :: encodeChar v
      :: encodeChars rest
  | [a, b] =>
    let v := a * 65536 + b * 256
    [encodeChar (v / 262144), encodeChar (v / 4096), encodeChar (v / 64), '=']
  | [a] =>
    let v := a * 65536
    [encodeChar (v / 262144), encodeChar (v / 4096), '=', '=']
  | [] => []

/-- The function `base64.StdEncoding.EncodeToString` on the bytes of a string. -/
def EncodeToString (src : List Nat) : String :=
  String.mk (encodeChars src)

/-- The authorization header value chosen on lines 62-68 of `config.go`. -/
def authorizationHeader (c : config) : String :=
  if c.Token != "" then
    "Bearer " ++ c.Token
  else if c.Username != "" && c.Password != "" then
    "Basic " ++ EncodeToString (bytes (c.Username ++ ":" ++ c.Password))
  else
    ""

/-- The function `LoadConfig` of `config.go`, started on the package variable `c`; the
result is the final value of the package variable, or the error returned. -/
def LoadConfig (env : Env) (configFile : String) (c : config) : Except String config :=
  match env.Open configFile with
  | some err => .error err
  | none =>
    match env.Decode configFile c with
    | .error err => .error err
    | .ok c =>
      let withDir : Except String config :=
        if c.CacheDir == "" then
          match env.UserCacheDir with
          | .error err => .error err
          | .ok cacheDir => .ok { c with CacheDir := env.Join cacheDir "ntfy-notify" }
        else
          .ok c
      match withDir with
      | .error err => .error err
      | .ok c =>
        match env.MkdirAll c.CacheDir with
        | some err => .error err
        | none =>
          let authorizationHeader := authorizationHeader c
          if authorizationHeader != "" then
            .ok { c with Header :=
              [("Authorization", [authorizationHeader]), ("User-Agent", [c.UserAgent])] }
          else
            .ok { c with Header := [("User-Agent", [c.UserAgent])] }

/-! ## The line scanner (`bufio.Scanner` with `ScanLines`, created on line 207) -/

/-- The constant `bufio.MaxScanTokenSize`, the size the scanner's buffer grows to at most. -/
def MaxScanTokenSize : Nat := 64 * 1024

/-- The text of the error `bufio.ErrTooLong`. -/
def ErrTooLong : String := "bufio.Scanner: token too long"

/-- The body of an HTTP response as the connection delivers it: the text received, the error
that ended the reading (`none` when the body ended with `io.EOF`), and whether the last bytes
arrived in the same `Read` as that end. The length of a text in bytes is the length of its
UTF-8 encoding. -/
structure Body where
  data : String
  readErr : GoError
  endWithData : Bool
deriving DecidableEq, Repr

/-- The loop of `rawLines`: `cur` holds the current line and `acc` the finished lines, both
in reverse order. -/
def rawLinesAux : List Char → List Char → List (List Char) → List (List Char)
  | [], cur, acc => (if cur = [] then acc else cur.reverse :: acc).reverse
  | c :: cs, cur, acc =>
    if c = '\n' then
      rawLinesAux cs [] ((c :: cur).reverse :: acc)
    else
      rawLinesAux cs (c :: cur) acc

/-- The lines of a text, each with its terminating newline; only the last line can be
without one, and an empty rest after the last newline is no line. -/
def rawLines (data : List Char) : List (List Char) :=
  rawLinesAux data [] []

/-- A raw line without its terminating newline. -/
def content (raw : List Char) : List Char :=
  if raw.getLast? = some '\n' then raw.dropLast else raw

/-- The function `dropCR` of `bufio`: drop one trailing carriage return. -/
def dropCR (data : List Char) : List Char :=
  if data.getLast? = some '\r' then data.dropLast else data

/-- The token that `ScanLines` returns for a raw line: the line without its newline and
without one trailing carriage return. -/
def token (raw : List Char) : String :=
  String.mk (dropCR (content raw))

/-- The number of bytes of a raw line before its newline. -/
def contentSize (raw : List Char) : Nat :=
  (bytes (String.mk (content raw))).length

/-- Whether `Scan` gives up on a raw line with `ErrTooLong`: the buffer holds at most
`MaxScanTokenSize` bytes, so a line whose newline is not among its first `MaxScanTokenSize`
bytes fills it; a last line without newline is still returned when it fits the buffer and,
if it fills it exactly, when the end of the body arrived together with its last bytes. -/
def tooLong (endWithData : Bool) (raw : List Char) : Bool :=
  if raw.getLast? = some '\n' then
    decide (MaxScanTokenSize ≤ contentSize raw)
  else
    decide (MaxScanTokenSize < contentSize raw) ||
      (decide (contentSize raw = MaxScanTokenSize) && !endWithData)

/-- The tokens that successive `Scan` calls yield on the raw lines, and the final value of
`scanner.Err()`: scanning stops at the first line that is too long, with `ErrTooLong`;
otherwise it ends with the error that ended the body. -/
def scanTokens (endWithData : Bool) (raws : List (List Char)) (readErr : GoError) : Response :=
  { lines := (raws.takeWhile (fun raw => !tooLong endWithData raw)).map token
    scanErr := if raws.any (tooLong endWithData) then some ErrTooLong else readErr }

/-- Line 207, `bufio.NewScanner(resp.Body)`: the response body as the scanner with its
default buffer presents it to the loop. -/
def NewScanner (b : Body) : Response :=
  scanTokens b.endWithData (rawLines b.data.data) b.readErr

/-- Whether `json.Unmarshal` accepts the token of a raw line. -/
def decodes (env : Env) (raw : List Char) : Bool :=
  (env.Unmarshal (token raw)).isOk

/-- The body without the lines that fail to decode. -/
def removeUndecodable (env : Env) (b : Body) : Body :=
  { b with data := String.mk ((rawLines b.data.data).filter (decodes env)).flatten }

/-- The world `env` in which the gap-fill request is answered with the body `b`. -/
def Env.answering (env : Env) (b : Body) : Env :=
  { env with Do := fun _ _ => .ok (NewScanner b) }

/-- A line that ends with its only newline. -/
def Terminated (l : List Char) : Prop :=
  ∃ body, l = body ++ ['\n'] ∧ '\n' ∉ body

/-- A non-empty line without newline. -/
def Unterminated (l : List Char) : Prop :=
  l ≠ [] ∧ '\n' ∉ l

/-- A list of raw lines as `rawLines` produces them: every line is terminated, except that
the last one may be unterminated. -/
def LineList : List (List Char) → Prop
  | [] => True
  | [l] => Terminated l ∨ Unterminated l
  | l :: l' :: ls => Terminated l ∧ LineList (l' :: ls)

/-! ## Durations (`main.go`, lines 85-89) -/

/-- Wrap-around of a signed 64-bit integer (Go `int64`, hence `time.Duration`). -/
def wrapInt64 (x : Int) : Int :=
  (x + 9223372036854775808) % 18446744073709551616 - 9223372036854775808

/-- The constant `time.Second`, in nanoseconds. -/
def Second : Int := 1000000000

/-- Line 86: `writeWait = 3 * time.Second`. -/
def writeWait : Int := wrapInt64 (3 * Second)

/-- Line 87: `pongWait = time.Duration(config.Config.KeepAlive) * time.Second`. -/
def pongWait (keepAlive : Int) : Int :=
  wrapInt64 (wrapInt64 keepAlive * Second)

/-- Line 88: `pingPeriod = (pongWait * 9) / 10`; Go integer division truncates toward
zero. -/
def pingPeriod (keepAlive : Int) : Int :=
  Int.tdiv (wrapInt64 (pongWait keepAlive * 9)) 10

/-! ## The checkpoint store (`main.go`, lines 230-246) -/

/-- The function `readCache` of `main.go`: the value read and the state with the log
lines. When the file does not exist `os.ReadFile` returns no data and the result is the
empty string. -/
def readCache (env : Env) (cfg : config) (key : String) (s : State) : String × State :=
  match env.ReadFile (cfg.CacheDir ++ "/" ++ key) with
  | .error e =>
    if !e.notExist then
      let s := s.slog .error ("failed to read cache " ++ key)
      ("", s.slog .debug e.text)
    else
      ("", s)
  | .ok data => (data, s)

/-- The state of the process as `main` sees it: the package variables and logs, the calls of
`os.WriteFile` made so far (path, data), and whether the deferred `ticker.Stop(); c.Close()`
has run. -/
structure Proc where
  s : State
  writes : List (String × String)
  closed : Bool
deriving DecidableEq, Repr

/-- The function `writeCache` of `main.go`. -/
def writeCache (env : Env) (cfg : config) (key : String) (data : String) (p : Proc) : Proc :=
  let path := cfg.CacheDir ++ "/" ++ key
  let p := { p with writes := p.writes ++ [(path, data)] }
  match env.WriteFile path data with
  | some err =>
    let s := p.s.slog .error ("failed to save cache " ++ key)
    { p with s := s.slog .debug err }
  | none => p

/-! ## The live read loop (`main.go`, lines 137-155) -/

/-- The errors of `c.ReadJSON(&message)`. -/
inductive ReadErr where
  /-- The frame was read but is not the JSON of a `Message`; the connection stays usable. -/
  | decode (text : String)
  /-- A `*websocket.CloseError` with its close code. -/
  | close (code : Nat) (text : String)
  /-- Any other error of the connection (read deadline expired, connection reset). -/
  | other (text : String)
deriving DecidableEq, Repr

/-- The text of a read error. -/
def ReadErr.text : ReadErr → String
  | .decode t => t
  | .close _ t => t
  | .other t => t

/-- The constant `websocket.CloseNormalClosure`. -/
def CloseNormalClosure : Nat := 1000

/-- The function `websocket.IsUnexpectedCloseError`: the error is a close error whose code
is not among the expected ones. -/
def IsUnexpectedCloseError (err : ReadErr) (expectedCodes : List Nat) : Bool :=
  match err with
  | .close code _ => !expectedCodes.contains code
  | _ => false

/-- What the read goroutine has done: its `slog` calls, the messages it sent on the channel
`messages`, and whether it has closed the channel `done`. -/
structure Reader where
  log : List LogEntry
  sent : List Message
  done : Bool
deriving DecidableEq, Repr

/-- The read goroutine of `main` on the successive results of `c.ReadJSON`. When the results
are used up the goroutine is blocked in the next read. -/
def readLoop : List (Except ReadErr Message) → Reader → Reader
  | [], r => r
  | .ok message :: rest, r =>
    readLoop rest
      { r with log := r.log ++ [⟨.debug, "received ws message"⟩], sent := r.sent ++ [message] }
  | .error err :: _, r =>
    let r :=
      if IsUnexpectedCloseError err [CloseNormalClosure] then
        { r with log := r.log ++ [⟨.error, "cannot read ntfy message"⟩, ⟨.debug, err.text⟩] }
      else
        r
    { r with log := r.log ++ [⟨.info, "ntfy closed connection"⟩], done := true }

/-! ## The coordinator (`main.go`, lines 60-191) -/

/-- What the `select` of the coordinator loop receives next, or a step of the gap-fill
goroutine between two iterations of the loop. -/
inductive Tick where
  /-- The case `<-done`. -/
  | done
  /-- The case `<-interrupt`: the error of writing the close message, and whether `done`
  arrives before the one second timer. -/
  | interrupt (closeErr : GoError) (confirmed : Bool)
  /-- The case `message := <-messages`. -/
  | message (m : Message)
  /-- The gap-fill goroutine started on line 95 runs `notify(m)` (line 216). -/
  | gapFill (m : Message)
deriving DecidableEq, Repr

/-- The ways `main` ends. -/
inductive Exit where
  | configError
  | connectError
  | tickerPanic
  | streamClosed
  | interruptConfirmed
  | interruptTimeout
deriving DecidableEq, Repr

/-- The `for`/`select` loop of `main` (lines 164-190). The result is `none` while the loop
is still waiting after the last tick. -/
def eventLoop (env : Env) (cfg : config) : List Tick → State → State × Option Exit
  | [], s => (s, none)
  | .done :: _, s => (s, some .streamClosed)
  | .interrupt closeErr confirmed :: _, s =>
    let s := s.slog .info "closing ntfy-notify"
    let s :=
      match closeErr with
      | some err => (s.slog .error "failed to send close message to ntfy").slog .debug err
      | none => s
    let s := if confirmed then s else s.slog .debug "ntfy endpoint timed out"
    let s := s.slog .info "bye"
    (s, some (if confirmed then .interruptConfirmed else .interruptTimeout))
  | .message message :: rest, s =>
    if message.Event == "message" then
      eventLoop env cfg rest (notify env message (s.slog .info "received ntfy message"))
    else
      eventLoop env cfg rest s
  | .gapFill m :: rest, s =>
    eventLoop env cfg rest (if cfg.FetchMissed then notify env m s else s)

/-- The deferred function registered on line 157. -/
def saveCheckpoint (env : Env) (cfg : config) (p : Proc) : Proc :=
  let p := writeCache env cfg "lastOnline" p.s.lastOnline p
  writeCache env cfg "lastId" p.s.lastId p

/-- The scheduling of one run of `main`: the `notify` calls the gap-fill goroutine makes
while `main` is dialling, and what happens in the coordinator loop. -/
structure Schedule where
  early : List Message
  ticks : List Tick
deriving DecidableEq, Repr

/-- The function `main` of `main.go`: the final process state and how `main` ended (`none`:
it is still in the coordinator loop). The returns on lines 79 and 108 and the panic of
`time.NewTicker` on a non-positive period (line 113) come before any `defer` statement; the
returns of the loop run the deferred functions in reverse order of registration, the one of
line 157 first and the one of line 115 last. The gap-fill goroutine takes part through its
`notify` calls only; its own log lines and its panic are in `fetchCachedMsg`. -/
def main (env : Env) (configFile : String) (sch : Schedule) : Proc × Option Exit :=
  let s : State := ⟨"", "", [], [], []⟩
  match LoadConfig env configFile Config with
  | .error err =>
    let s := s.slog .error "failed to parse config"
    (⟨s.slog .debug err, [], false⟩, some .configError)
  | .ok cfg =>
    let s := s.slog .debug "loaded config"
    let s := s.slog .info "starting ntfy-notify"
    let pingPeriod := pingPeriod cfg.KeepAlive
    let r := readCache env cfg "lastOnline" s
    let s := { r.2 with lastOnline := r.1 }
    let r := readCache env cfg "lastId" s
    let s := { r.2 with lastId := r.1 }
    let u := env.URLString "wss" cfg.Endpoint ("/" ++ cfg.Topics ++ "/ws")
    let s := s.slog .debug "subscribing to ntfy endpoint"
    let s := if cfg.FetchMissed then sch.early.foldl (fun s m => notify env m s) s else s
    match env.Dial u cfg.Header with
    | some err =>
      let s := s.slog .error "failed to subscribe to ntfy endpoint"
      (⟨s.slog .debug err, [], false⟩, some .connectError)
    | none =>
      let s := s.slog .info "subscribed to ntfy endpoint"
      if pingPeriod ≤ 0 then
        (⟨s, [], false⟩, some .tickerPanic)
      else
        let s := s.slog .info "started ntfy-notify"
        match eventLoop env cfg sch.ticks s with
        | (s, none) => (⟨s, [], false⟩, none)
        | (s, some e) =>
          let p := saveCheckpoint env cfg ⟨s, [], false⟩
          ({ p with closed := true }, some e)

/-! ## Concrete worlds used to run the definitions -/

/-- An event with the given id, time and kind, and a title and body made from the id. -/
def sampleEvent (id time kind : String) : Message :=
  { zeroMessage with
    Id := id, Time := time, Event := kind, Title := "title " ++ id, Message := "body " ++ id }

/-- The boundary event of the examples. -/
def eventX : Message := sampleEvent "X" "1700000000" "message"

/-- The next event after the boundary. -/
def eventY : Message := sampleEvent "Y" "1700000001" "message"

/-- The event after `eventY`. -/
def eventZ : Message := sampleEvent "Z" "1700000002" "message"

/-- An event that is not of kind `message`. -/
def eventK : Message := sampleEvent "K" "1700000003" "keepalive"

/-- The response lines the sample decoder accepts, with the event each one decodes to. -/
def sampleLines : List (String × Message) :=
  [("line X", eventX), ("line Y", eventY), ("line Z", eventZ), ("line K", eventK)]

/-- A world where the configuration file sets a token and the cache directory, the checkpoint
files hold the time and id of `eventX`, only `notify-send` is installed, the n-th run of the
sink command ends with `sink n`, the gap-fill request ends with `resp` and the websocket
dial with `dial`. -/
def sampleWorld (sink : Nat → GoError) (resp : DoResult) (dial : GoError) : Env :=
  { Open := fun _ => none
    Decode := fun _ c => .ok { c with Token := "tk_sample", CacheDir := "/var/cache/ntfy" }
    UserCacheDir := .ok "/home/user/.cache"
    Join := fun a b => a ++ "/" ++ b
    MkdirAll := fun _ => none
    ReadFile := fun path =>
      if path == "/var/cache/ntfy/lastOnline" then .ok "1700000000"
      else if path == "/var/cache/ntfy/lastId" then .ok "X"
      else .error ⟨true, "no such file or directory"⟩
    WriteFile := fun _ _ => none
    LookPath := fun _ file =>
      if file == "notify-send" then .ok "/usr/bin/notify-send"
      else .error "executable file not found in $PATH"
    Run := fun n _ _ => sink n
    Unmarshal := fun line =>
      match sampleLines.lookup line with
      | some m => .ok m
      | none => .error "invalid character"
    NewRequest := fun _ => none
    Do := fun _ _ => resp
    URLString := fun scheme host path => scheme ++ "://" ++ host ++ path
    Dial := fun _ _ => dial }

/-- The world `sampleWorld` with a working sink and connection, where the configuration file
also sets `keepAlive: 1024819116`. -/
def longKeepAliveWorld : Env :=
  { sampleWorld (fun _ => none) (.ok ⟨[], none⟩) none with
    Decode := fun _ c =>
      .ok { c with Token := "tk_sample", CacheDir := "/var/cache/ntfy", KeepAlive := 1024819116 } }

/-- A line of 70000 letters, more than the scanner's buffer holds. -/
def longLine : List Char := List.replicate 70000 'a'

/-- The body made of the line of `eventY`, the line `longLine` and the line of `eventZ`, each
ended by a newline. -/
def bodyLong : Body :=
  { data := String.mk ("line Y".data ++ '\n' :: (longLine ++ '\n' :: ("line Z".data ++ ['\n'])))
    readErr := none
    endWithData := false }

/-- The body `bodyLong` without its long line. -/
def bodyShort : Body :=
  { data := "line Y\nline Z\n", readErr := none, endWithData := false }

/-- A body with an undecodable line, a line ended by carriage return and newline, an empty
line and a last line without newline. -/
def bodyMixed : Body :=
  { data := "line X\nnot json\nline Y\r\n\nline Z", readErr := none, endWithData := true }

/-- The configuration that `LoadConfig` produces in `sampleWorld`. -/
def sampleConfig : config :=
  { Config with
    Token := "tk_sample"
    CacheDir := "/var/cache/ntfy"
    Header := [("Authorization", ["Bearer tk_sample"]), ("User-Agent", ["ntfy-notify/dev"])] }

/-- The state right after the checkpoint of `eventX` was loaded. -/
def stateX : State := ⟨"1700000000", "X", [], [], []⟩

/-- A sink that always succeeds. -/
def sinkOk : Nat → GoError := fun _ => none

/-- A sink that always fails. -/
def sinkDown : Nat → GoError := fun _ => some "exit status 1"

/-! ## Facts about `notify` -/

theorem slog_lastOnline (s : State) (l : Level) (m : String) :
    (s.slog l m).lastOnline = s.lastOnline := rfl

theorem slog_lastId (s : State) (l : Level) (m : String) :
    (s.slog l m).lastId = s.lastId := rfl

theorem slog_sinkCalls (s : State) (l : Level) (m : String) :
    (s.slog l m).sinkCalls = s.sinkCalls := rfl

theorem slog_notifyCalls (s : State) (l : Level) (m : String) :
    (s.slog l m).notifyCalls = s.notifyCalls := rfl

/-- The two branches of `notify`, by the answer of the sink. -/
theorem notify_eq (env : Env) (m : Message) (s : State) :
    notify env m s =
      match Notify env s.sinkCalls.length m.Title m.Message with
      | some e =>
        { s with
          log := s.log ++ [⟨.debug, "notifying message"⟩] ++
            [⟨.error, "failed to notify message"⟩] ++ [⟨.debug, e⟩]
          sinkCalls := s.sinkCalls ++ [(m.Title, m.Message)]
          notifyCalls := s.notifyCalls ++ [m] }
      | none =>
        { lastOnline := m.Time
          lastId := m.Id
          log := s.log ++ [⟨.debug, "notifying message"⟩] ++ [⟨.debug, "notified message"⟩]
          sinkCalls := s.sinkCalls ++ [(m.Title, m.Message)]
          notifyCalls := s.notifyCalls ++ [m] } := by
  show (match Notify env s.sinkCalls.length m.Title m.Message with
    | some e => _
    | none => _) = _
  cases Notify env s.sinkCalls.length m.Title m.Message <;> rfl

/-- Every call of `notify` is recorded, whatever the sink answers. -/
theorem notify_notifyCalls (env : Env) (m : Message) (s : State) :
    (notify env m s).notifyCalls = s.notifyCalls ++ [m] := by
  rw [notify_eq]
  cases Notify env s.sinkCalls.length m.Title m.Message <;> rfl

/-- Every call of `notify` calls the sink once, with the title and the body. -/
theorem notify_sinkCalls (env : Env) (m : Message) (s : State) :
    (notify env m s).sinkCalls = s.sinkCalls ++ [(m.Title, m.Message)] := by
  rw [notify_eq]
  cases Notify env s.sinkCalls.length m.Title m.Message <;> rfl

/-- C3: when the sink returns an error for an event, `notify` leaves both checkpoint
variables, `lastOnline` and `lastId`, at the values they had before the call. -/
theorem notify_failure_keeps_checkpoint (env : Env) (message : Message) (s : State)
    (e : String)
    (hsink : Notify env s.sinkCalls.length message.Title message.Message = some e) :
    (notify env message s).lastOnline = s.lastOnline ∧
      (notify env message s).lastId = s.lastId := by
  rw [notify_eq, hsink]
  exact ⟨rfl, rfl⟩

/-- C3 at a concrete input: the sink is down, the checkpoint of `eventX` survives the
attempt to deliver `eventY`. -/
theorem notify_failure_keeps_checkpoint_witness :
    Notify (sampleWorld sinkDown (.fail "unreachable") none) stateX.sinkCalls.length
        eventY.Title eventY.Message = some "exit status 1" ∧
      (notify (sampleWorld sinkDown (.fail "unreachable") none) eventY stateX).lastOnline
        = "1700000000" ∧
      (notify (sampleWorld sinkDown (.fail "unreachable") none) eventY stateX).lastId = "X" :=
  ⟨by decide,
    notify_failure_keeps_checkpoint (sampleWorld sinkDown (.fail "unreachable") none)
      eventY stateX "exit status 1" (by decide)⟩

/-- C9: when the sink returns success for an event, after `notify` the variable
`lastOnline` is the text of the event's `time` field and `lastId` is the event's id, both
assigned by that one call. -/
theorem notify_success_sets_checkpoint (env : Env) (message : Message) (s : State)
    (hsink : Notify env s.sinkCalls.length message.Title message.Message = none) :
    (notify env message s).lastOnline = message.Time ∧
      (notify env message s).lastId = message.Id := by
  rw [notify_eq, hsink]
  exact ⟨rfl, rfl⟩

/-- C9 at a concrete input: the sink works, delivering `eventY` moves the checkpoint from
`eventX` to `eventY`. -/
theorem notify_success_sets_checkpoint_witness :
    Notify (sampleWorld sinkOk (.fail "unreachable") none) stateX.sinkCalls.length
        eventY.Title eventY.Message = none ∧
      (notify (sampleWorld sinkOk (.fail "unreachable") none) eventY stateX).lastOnline
        = "1700000001" ∧
      (notify (sampleWorld sinkOk (.fail "unreachable") none) eventY stateX).lastId = "Y" :=
  ⟨by decide,
    notify_success_sets_checkpoint (sampleWorld sinkOk (.fail "unreachable") none)
      eventY stateX (by decide)⟩

/-! ## Facts about the scanner loop of the gap-fill -/

theorem scanStep_error (env : Env) (acc : State × Nat) (line e : String)
    (h : env.Unmarshal line = .error e) :
    scanStep env acc line =
      ((acc.1.slog .error "failed to parse cached message").slog .debug e, acc.2) := by
  unfold scanStep
  rw [h]

theorem scanStep_fresh (env : Env) (acc : State × Nat) (line : String) (m : Message)
    (h : env.Unmarshal line = .ok m) (hid : m.Id ≠ acc.1.lastId) :
    scanStep env acc line = (notify env m acc.1, acc.2 + 1) := by
  unfold scanStep
  rw [h]
  simp [hid]

theorem scanStep_seen (env : Env) (acc : State × Nat) (line : String) (m : Message)
    (h : env.Unmarshal line = .ok m) (hid : m.Id = acc.1.lastId) :
    scanStep env acc line = acc := by
  unfold scanStep
  rw [h]
  simp [hid]

/-- The log of the state does not influence what `notify` does to the rest of it. -/
theorem notify_dropLog (env : Env) (m : Message) (a b : State)
    (h : a.dropLog = b.dropLog) :
    (notify env m a).dropLog = (notify env m b).dropLog := by
  have h1 : a.lastOnline = b.lastOnline := by
    have := congrArg State.lastOnline h
    exact this
  have h2 : a.lastId = b.lastId := by
    have := congrArg State.lastId h
    exact this
  have h3 : a.sinkCalls = b.sinkCalls := by
    have := congrArg State.sinkCalls h
    exact this
  have h4 : a.notifyCalls = b.notifyCalls := by
    have := congrArg State.notifyCalls h
    exact this
  rw [notify_eq, notify_eq, h3]
  cases Notify env b.sinkCalls.length m.Title m.Message <;>
    simp [State.dropLog, h1, h2, h3, h4]

/-- One iteration of the scanner loop on two states that differ in the log only. -/
theorem scanStep_dropLog (env : Env) (a b : State × Nat) (line : String)
    (h : a.1.dropLog = b.1.dropLog) (hc : a.2 = b.2) :
    (scanStep env a line).1.dropLog = (scanStep env b line).1.dropLog ∧
      (scanStep env a line).2 = (scanStep env b line).2 := by
  have h2 : a.1.lastId = b.1.lastId := by
    have := congrArg State.lastId h
    exact this
  cases hu : env.Unmarshal line with
  | error e =>
    rw [scanStep_error env a line e hu, scanStep_error env b line e hu]
    exact ⟨h, hc⟩
  | ok m =>
    by_cases hid : m.Id = a.1.lastId
    · rw [scanStep_seen env a line m hu hid, scanStep_seen env b line m hu (h2 ▸ hid)]
      exact ⟨h, hc⟩
    · rw [scanStep_fresh env a line m hu hid, scanStep_fresh env b line m hu (h2 ▸ hid)]
      exact ⟨notify_dropLog env m a.1 b.1 h, by simp [hc]⟩

/-- The scanner loop over all lines and over the decodable lines only. -/
theorem scan_filter (env : Env) :
    ∀ (lines : List String) (a b : State × Nat),
      a.1.dropLog = b.1.dropLog → a.2 = b.2 →
      (lines.foldl (scanStep env) a).1.dropLog =
          ((lines.filter (fun l => (env.Unmarshal l).isOk)).foldl (scanStep env) b).1.dropLog ∧
        (lines.foldl (scanStep env) a).2 =
          ((lines.filter (fun l => (env.Unmarshal l).isOk)).foldl (scanStep env) b).2 := by
  intro lines
  induction lines with
  | nil => intro a b h hc; exact ⟨h, hc⟩
  | cons l ls ih =>
    intro a b h hc
    rw [List.foldl_cons]
    cases hu : env.Unmarshal l with
    | error e =>
      rw [List.filter_cons_of_neg (by simp [hu, Except.isOk, Except.toBool])]
      rw [scanStep_error env a l e hu]
      exact ih _ b h hc
    | ok m =>
      rw [List.filter_cons_of_pos (by simp [hu, Except.isOk, Except.toBool]), List.foldl_cons]
      obtain ⟨h', hc'⟩ := scanStep_dropLog env a b l h hc
      exact ih _ _ h' hc'

/-! ## The gap-fill fetcher (claims C1, C2 and C4) -/

/-- C1: when the gap-fill request fails at the transport level (`client.Do` returns an
error and a nil response), `fetchCachedMsg` logs the failure, hands nothing to `notify` and
leaves the checkpoint alone, but it does not return: line 226 evaluates `resp.Body` on the
nil response and the goroutine panics. -/
theorem fetchCachedMsg_transport_failure_panics (env : Env) (cfg : config) (s : State)
    (err : String)
    (hreq : env.NewRequest (fetchURL cfg s.lastOnline) = none)
    (hdo : env.Do (fetchURL cfg s.lastOnline) cfg.Header = .fail err) :
    fetchCachedMsg env cfg s =
      .panicked
        { s with log := s.log ++ [⟨.info, "fetching cached messages"⟩] ++
          [⟨.error, "failed to fetch cached message"⟩] ++ [⟨.debug, err⟩] }
        "invalid memory address or nil pointer dereference" := by
  have hreq' : env.NewRequest
      (fetchURL cfg (s.slog .info "fetching cached messages").lastOnline) = none := hreq
  have hdo' : env.Do (fetchURL cfg (s.slog .info "fetching cached messages").lastOnline)
      cfg.Header = .fail err := hdo
  unfold fetchCachedMsg
  simp only [hreq', hdo']
  rfl

/-- C1 at a concrete input: the endpoint cannot be reached, and the gap-fill of the
checkpoint of `eventX` ends in a panic after the error was logged. -/
theorem fetchCachedMsg_transport_failure_panics_witness :
    fetchCachedMsg (sampleWorld sinkOk (.fail "dial tcp: connection refused") none)
        sampleConfig stateX =
      .panicked
        ⟨"1700000000", "X",
          [⟨.info, "fetching cached messages"⟩, ⟨.error, "failed to fetch cached message"⟩,
            ⟨.debug, "dial tcp: connection refused"⟩], [], []⟩
        "invalid memory address or nil pointer dereference" :=
  fetchCachedMsg_transport_failure_panics
    (sampleWorld sinkOk (.fail "dial tcp: connection refused") none) sampleConfig stateX
    "dial tcp: connection refused" rfl rfl

/-- C2: in the gap-fill, an event whose kind is not `message` and whose id is not `lastId`
is handed to `notify`, and the sink `notifier.Notify` is invoked with its title and body:
`fetchCachedMsg` compares ids only and never looks at the `Event` field. -/
theorem fetchCachedMsg_notifies_other_kinds (env : Env) (cfg : config) (s : State)
    (line : String) (m : Message) (scanErr : GoError)
    (hreq : env.NewRequest (fetchURL cfg s.lastOnline) = none)
    (hdo : env.Do (fetchURL cfg s.lastOnline) cfg.Header = .ok ⟨[line], scanErr⟩)
    (hline : env.Unmarshal line = .ok m)
    (hkind : m.Event ≠ "message")
    (hid : m.Id ≠ s.lastId) :
    (fetchCachedMsg env cfg s).isReturned = true ∧
      m.Event ≠ "message" ∧
      (fetchCachedMsg env cfg s).state.sinkCalls = s.sinkCalls ++ [(m.Title, m.Message)] ∧
      (fetchCachedMsg env cfg s).state.notifyCalls = s.notifyCalls ++ [m] := by
  have hreq' : env.NewRequest
      (fetchURL cfg (s.slog .info "fetching cached messages").lastOnline) = none := hreq
  have hdo' : env.Do (fetchURL cfg (s.slog .info "fetching cached messages").lastOnline)
      cfg.Header = .ok ⟨[line], scanErr⟩ := hdo
  have hid' : m.Id ≠ ((s.slog .info "fetching cached messages"), 0).1.lastId := hid
  unfold fetchCachedMsg
  simp only [hreq', hdo']
  simp only [Outcome.isReturned, Outcome.state]
  refine ⟨trivial, hkind, ?_, ?_⟩
  · unfold scanBody
    simp only [List.foldl_cons, List.foldl_nil]
    rw [scanStep_fresh env _ line m hline hid']
    cases scanErr <;> exact notify_sinkCalls env m _
  · unfold scanBody
    simp only [List.foldl_cons, List.foldl_nil]
    rw [scanStep_fresh env _ line m hline hid']
    cases scanErr <;> exact notify_notifyCalls env m _

/-- C2 at a concrete input: the gap-fill response holds the `keepalive` event `eventK`, and
the sink is called with its title and body. -/
theorem fetchCachedMsg_notifies_other_kinds_witness :
    eventK.Event = "keepalive" ∧
      (fetchCachedMsg (sampleWorld sinkOk (.ok ⟨["line K"], none⟩) none) sampleConfig
        stateX).isReturned = true ∧
      eventK.Event ≠ "message" ∧
      (fetchCachedMsg (sampleWorld sinkOk (.ok ⟨["line K"], none⟩) none) sampleConfig
        stateX).state.sinkCalls = stateX.sinkCalls ++ [("title K", "body K")] ∧
      (fetchCachedMsg (sampleWorld sinkOk (.ok ⟨["line K"], none⟩) none) sampleConfig
        stateX).state.notifyCalls = stateX.notifyCalls ++ [eventK] :=
  ⟨rfl,
    fetchCachedMsg_notifies_other_kinds (sampleWorld sinkOk (.ok ⟨["line K"], none⟩) none)
      sampleConfig stateX "line K" eventK none rfl rfl rfl (by decide) (by decide)⟩

/-- The sibling path: in the coordinator loop an event whose kind is not `message` is
dropped without a call of `notify`. -/
theorem eventLoop_drops_other_kinds (env : Env) (cfg : config) (m : Message)
    (rest : List Tick) (s : State) (hkind : m.Event ≠ "message") :
    eventLoop env cfg (.message m :: rest) s = eventLoop env cfg rest s := by
  rw [eventLoop]
  simp [hkind]

/-- The finished lines only pile up in front of what the loop still produces. -/
theorem rawLinesAux_acc :
    ∀ (cs cur : List Char) (acc : List (List Char)),
      rawLinesAux cs cur acc = acc.reverse ++ rawLinesAux cs cur [] := by
  intro cs
  induction cs with
  | nil =>
    intro cur acc
    simp only [rawLinesAux]
    split <;> simp
  | cons c cs ih =>
    intro cur acc
    simp only [rawLinesAux]
    split
    · rw [ih [] (_ :: acc), ih [] [_]]
      simp
    · exact ih _ _

/-- The loop up to the first newline. -/
theorem rawLinesAux_terminated :
    ∀ (body cur rest : List Char), '\n' ∉ body →
      rawLinesAux (body ++ '\n' :: rest) cur [] =
        (cur.reverse ++ body ++ ['\n']) :: rawLinesAux rest [] [] := by
  intro body
  induction body with
  | nil =>
    intro cur rest _
    simp only [List.nil_append, rawLinesAux, if_true]
    rw [rawLinesAux_acc]
    simp
  | cons c body ih =>
    intro cur rest h
    have hc : c ≠ '\n' := fun e => h (e ▸ List.mem_cons_self _ _)
    have hb : '\n' ∉ body := fun e => h (List.mem_cons_of_mem _ e)
    rw [List.cons_append, rawLinesAux, if_neg hc, ih (c :: cur) rest hb]
    simp

/-- The loop on a text without newline. -/
theorem rawLinesAux_unterminated :
    ∀ (l cur : List Char), '\n' ∉ l →
      rawLinesAux l cur [] = if cur.reverse ++ l = [] then [] else [cur.reverse ++ l] := by
  intro l
  induction l with
  | nil =>
    intro cur _
    simp only [rawLinesAux, List.append_nil]
    by_cases hcur : cur = [] <;> simp [hcur]
  | cons c l ih =>
    intro cur h
    have hc : c ≠ '\n' := fun e => h (e ▸ List.mem_cons_self _ _)
    have hl : '\n' ∉ l := fun e => h (List.mem_cons_of_mem _ e)
    rw [rawLinesAux, if_neg hc, ih (c :: cur) hl]
    simp

theorem rawLines_nil : rawLines [] = [] := rfl

/-- The first line of a text that has a newline. -/
theorem rawLines_terminated (body rest : List Char) (h : '\n' ∉ body) :
    rawLines (body ++ '\n' :: rest) = (body ++ ['\n']) :: rawLines rest := by
  unfold rawLines
  rw [rawLinesAux_terminated body [] rest h]
  simp

/-- A non-empty text without newline is one line. -/
theorem rawLines_unterminated (l : List Char) (h : '\n' ∉ l) (hne : l ≠ []) :
    rawLines l = [l] := by
  unfold rawLines
  rw [rawLinesAux_unterminated l [] h]
  simp [hne]

/-- A text has no newline, or splits at its first newline. -/
theorem split_first_newline :
    ∀ d : List Char, '\n' ∉ d ∨ ∃ body rest, d = body ++ '\n' :: rest ∧ '\n' ∉ body := by
  intro d
  induction d with
  | nil => exact Or.inl (List.not_mem_nil _)
  | cons c cs ih =>
    by_cases hc : c = '\n'
    · exact Or.inr ⟨[], cs, by simp [hc], List.not_mem_nil _⟩
    · rcases ih with h | ⟨body, rest, he, hb⟩
      · refine Or.inl ?_
        intro hmem
        rcases List.mem_cons.1 hmem with e | e
        · exact hc e.symm
        · exact h e
      · refine Or.inr ⟨c :: body, rest, by simp [he], ?_⟩
        intro hmem
        rcases List.mem_cons.1 hmem with e | e
        · exact hc e.symm
        · exact hb e

theorem LineList_cons (x : List Char) (ls : List (List Char)) (hx : Terminated x)
    (hls : LineList ls) : LineList (x :: ls) := by
  cases ls with
  | nil => exact Or.inl hx
  | cons y ys => exact ⟨hx, hls⟩

/-- The lines of a text form a line list. -/
theorem LineList_rawLines : ∀ (n : Nat) (d : List Char), d.length ≤ n → LineList (rawLines d) := by
  intro n
  induction n with
  | zero =>
    intro d hd
    have : d = [] := List.length_eq_zero.1 (Nat.le_zero.1 hd)
    subst this
    exact trivial
  | succ n ih =>
    intro d hd
    rcases split_first_newline d with h | ⟨body, rest, he, hb⟩
    · by_cases hne : d = []
      · subst hne
        exact trivial
      · rw [rawLines_unterminated d h hne]
        exact Or.inr ⟨hne, h⟩
    · subst he
      rw [rawLines_terminated body rest hb]
      refine LineList_cons _ _ ⟨body, rfl, hb⟩ (ih rest ?_)
      simp only [List.length_append, List.length_cons] at hd
      omega

/-- Leaving lines out of a line list gives a line list. -/
theorem LineList_filter (p : List Char → Bool) :
    ∀ ls : List (List Char), LineList ls → LineList (ls.filter p) := by
  intro ls
  induction ls with
  | nil => intro _; exact trivial
  | cons x ls ih =>
    intro h
    cases ls with
    | nil =>
      by_cases hp : p x = true
      · simpa [List.filter, hp] using h
      · simp [List.filter, hp, LineList]
    | cons y ys =>
      obtain ⟨hx, hrest⟩ := h
      by_cases hp : p x = true
      · rw [List.filter_cons_of_pos hp]
        exact LineList_cons _ _ hx (ih hrest)
      · rw [List.filter_cons_of_neg hp]
        exact ih hrest

/-- Splitting the text made of a line list gives the line list back. -/
theorem rawLines_flatten : ∀ ls : List (List Char), LineList ls → rawLines ls.flatten = ls := by
  intro ls
  induction ls with
  | nil => intro _; rfl
  | cons x ls ih =>
    intro h
    cases ls with
    | nil =>
      rcases h with ⟨body, he, hb⟩ | ⟨hne, hn⟩
      · subst he
        have : [body ++ ['\n']].flatten = body ++ '\n' :: [] := by simp
        rw [this, rawLines_terminated body [] hb, rawLines_nil]
      · have : [x].flatten = x := by simp
        rw [this, rawLines_unterminated x hn hne]
    | cons y ys =>
      obtain ⟨⟨body, he, hb⟩, hrest⟩ := h
      subst he
      have : ((body ++ ['\n']) :: y :: ys).flatten = body ++ '\n' :: (y :: ys).flatten := by
        simp
      rw [this, rawLines_terminated body _ hb, ih hrest]

/-- A line that is too long has at least `MaxScanTokenSize` bytes before its newline. -/
theorem tooLong_size (endWithData : Bool) (raw : List Char)
    (h : tooLong endWithData raw = true) : MaxScanTokenSize ≤ contentSize raw := by
  unfold tooLong at h
  split at h
  · exact of_decide_eq_true h
  · simp only [Bool.or_eq_true, Bool.and_eq_true, decide_eq_true_eq] at h
    rcases h with h1 | ⟨h2, _⟩
    · exact Nat.le_of_lt h1
    · omega

/-- Scanning the decodable lines only, when every line that fails to decode is shorter than
`MaxScanTokenSize`: the tokens are the decodable tokens of the full scan and the final error
is the same. -/
theorem scanTokens_filter (env : Env) (endWithData : Bool) (readErr : GoError) :
    ∀ raws : List (List Char),
      (∀ raw ∈ raws, decodes env raw = false → contentSize raw < MaxScanTokenSize) →
      scanTokens endWithData (raws.filter (decodes env)) readErr =
        { lines := (scanTokens endWithData raws readErr).lines.filter
            (fun l => (env.Unmarshal l).isOk)
          scanErr := (scanTokens endWithData raws readErr).scanErr } := by
  intro raws
  induction raws with
  | nil => intro _; simp [scanTokens]
  | cons raw raws ih =>
    intro h
    have ih' := ih (fun r hr => h r (List.mem_cons_of_mem _ hr))
    simp only [scanTokens, Response.mk.injEq] at ih' ⊢
    obtain ⟨ih1, ih2⟩ := ih'
    by_cases hd : decodes env raw = true
    · have hok : (env.Unmarshal (token raw)).isOk = true := hd
      rw [List.filter_cons_of_pos hd]
      by_cases ht : tooLong endWithData raw = true
      · simp [List.takeWhile_cons, List.any_cons, ht]
      · simp only [Bool.not_eq_true] at ht
        simp only [List.takeWhile_cons, ht, Bool.not_false, if_true, List.map_cons,
          List.any_cons, Bool.false_or]
        refine ⟨?_, ih2⟩
        rw [ih1]
        simp [List.filter_cons, hok]
    · simp only [Bool.not_eq_true] at hd
      have hbad : (env.Unmarshal (token raw)).isOk = false := hd
      have ht : tooLong endWithData raw = false := by
        cases htl : tooLong endWithData raw with
        | false => rfl
        | true =>
          have h1 := tooLong_size endWithData raw htl
          have h2 := h raw (List.mem_cons_self _ _) hd
          omega
      rw [List.filter_cons_of_neg (by simp [hd])]
      simp only [List.takeWhile_cons, ht, Bool.not_false, if_true, List.map_cons,
        List.any_cons, Bool.false_or]
      refine ⟨?_, ih2⟩
      rw [ih1]
      simp [List.filter_cons, hbad]

/-- What the scanner presents of the body without the undecodable lines. -/
theorem NewScanner_removeUndecodable (env : Env) (b : Body)
    (hshort : ∀ raw ∈ rawLines b.data.data,
      decodes env raw = false → contentSize raw < MaxScanTokenSize) :
    NewScanner (removeUndecodable env b) =
      { lines := (NewScanner b).lines.filter (fun l => (env.Unmarshal l).isOk)
        scanErr := (NewScanner b).scanErr } := by
  unfold NewScanner removeUndecodable
  show scanTokens b.endWithData
    (rawLines ((rawLines b.data.data).filter (decodes env)).flatten) b.readErr = _
  rw [rawLines_flatten _ (LineList_filter _ _ (LineList_rawLines _ _ (Nat.le_refl _)))]
  exact scanTokens_filter env b.endWithData b.readErr _ hshort

/-- The gap-fill when the request is answered with the body `b`. -/
theorem fetchCachedMsg_answering (env : Env) (cfg : config) (s : State) (b : Body)
    (hreq : env.NewRequest (fetchURL cfg s.lastOnline) = none) :
    fetchCachedMsg (env.answering b) cfg s =
      .returned ((scanBody env (NewScanner b)
        (s.slog .info "fetching cached messages", 0)).1.slog .info "fetched cached messages") := by
  have hreq' : (env.answering b).NewRequest
      (fetchURL cfg (s.slog .info "fetching cached messages").lastOnline) = none := hreq
  have hdo : (env.answering b).Do
      (fetchURL cfg (s.slog .info "fetching cached messages").lastOnline) cfg.Header =
        .ok (NewScanner b) := rfl
  unfold fetchCachedMsg
  simp only [hreq', hdo]
  rfl

/-- The scanner loop on the decodable tokens only: what `notify` receives, the sink calls,
the checkpoint and the count are those of the loop on all tokens. -/
theorem scanBody_filter_tokens (env : Env) (lines : List String) (scanErr : GoError)
    (acc : State × Nat) :
    (scanBody env ⟨lines, scanErr⟩ acc).1.dropLog =
        (scanBody env ⟨lines.filter (fun l => (env.Unmarshal l).isOk), scanErr⟩ acc).1.dropLog ∧
      (scanBody env ⟨lines, scanErr⟩ acc).2 =
        (scanBody env ⟨lines.filter (fun l => (env.Unmarshal l).isOk), scanErr⟩ acc).2 := by
  obtain ⟨h, hc⟩ := scan_filter env lines acc acc rfl rfl
  unfold scanBody
  cases scanErr <;> exact ⟨h, hc⟩

/-- C8, as the code has it: for every gap-fill response body in which each line that fails
to decode is shorter than the scanner's buffer (`bufio.MaxScanTokenSize`, 64 KiB), those
lines are skipped without stopping the scan: the gap-fill returns, and the events handed to
`notify`, the sink calls and the resulting checkpoint are the same as for the body with the
undecodable lines removed, the sink answering the same way call by call. -/
theorem fetchCachedMsg_skips_undecodable_lines (env : Env) (cfg : config) (s : State)
    (b : Body)
    (hreq : env.NewRequest (fetchURL cfg s.lastOnline) = none)
    (hshort : ∀ raw ∈ rawLines b.data.data,
      decodes env raw = false → contentSize raw < MaxScanTokenSize) :
    (fetchCachedMsg (env.answering b) cfg s).isReturned = true ∧
      (fetchCachedMsg (env.answering (removeUndecodable env b)) cfg s).isReturned = true ∧
      (fetchCachedMsg (env.answering b) cfg s).state.notifyCalls =
        (fetchCachedMsg (env.answering (removeUndecodable env b)) cfg s).state.notifyCalls ∧
      (fetchCachedMsg (env.answering b) cfg s).state.sinkCalls =
        (fetchCachedMsg (env.answering (removeUndecodable env b)) cfg s).state.sinkCalls ∧
      (fetchCachedMsg (env.answering b) cfg s).state.lastOnline =
        (fetchCachedMsg (env.answering (removeUndecodable env b)) cfg s).state.lastOnline ∧
      (fetchCachedMsg (env.answering b) cfg s).state.lastId =
        (fetchCachedMsg (env.answering (removeUndecodable env b)) cfg s).state.lastId := by
  rw [fetchCachedMsg_answering env cfg s b hreq,
    fetchCachedMsg_answering env cfg s (removeUndecodable env b) hreq,
    NewScanner_removeUndecodable env b hshort]
  obtain ⟨key, _⟩ := scanBody_filter_tokens env (NewScanner b).lines (NewScanner b).scanErr
    (s.slog .info "fetching cached messages", 0)
  refine ⟨rfl, rfl, ?_, ?_, ?_, ?_⟩
  · have := congrArg State.notifyCalls key
    exact this
  · have := congrArg State.sinkCalls key
    exact this
  · have := congrArg State.lastOnline key
    exact this
  · have := congrArg State.lastId key
    exact this

/-- C8 at a concrete input: in `bodyMixed` every line is short; with and without the
undecodable lines `not json` and the empty line, the gap-fill hands over the same events. -/
theorem fetchCachedMsg_skips_undecodable_lines_witness :
    (removeUndecodable (sampleWorld sinkOk (.fail "unused") none) bodyMixed).data
        = "line X\nline Y\r\nline Z" ∧
      (fetchCachedMsg ((sampleWorld sinkOk (.fail "unused") none).answering bodyMixed)
        sampleConfig stateX).state.notifyCalls = [eventY, eventZ] ∧
      (fetchCachedMsg ((sampleWorld sinkOk (.fail "unused") none).answering bodyMixed)
        sampleConfig stateX).state.notifyCalls =
      (fetchCachedMsg ((sampleWorld sinkOk (.fail "unused") none).answering
        (removeUndecodable (sampleWorld sinkOk (.fail "unused") none) bodyMixed))
        sampleConfig stateX).state.notifyCalls :=
  ⟨by decide, by decide,
    (fetchCachedMsg_skips_undecodable_lines (sampleWorld sinkOk (.fail "unused") none)
      sampleConfig stateX bodyMixed rfl (by decide)).2.2.1⟩

/-! ## The long line (counterexample of claim C8) -/

theorem longLine_no_newline : '\n' ∉ longLine := by
  intro h
  have := List.eq_of_mem_replicate h
  exact absurd this (by decide)

theorem content_longLine : content (longLine ++ ['\n']) = longLine := by
  simp [content, List.getLast?_concat, List.dropLast_concat]

/-- The UTF-8 encoding of a row of the letter `a` has one byte for each letter. -/
theorem bytes_replicate (n : Nat) : (bytes (String.mk (List.replicate n 'a'))).length = n := by
  induction n with
  | zero => rfl
  | succ n ih =>
    have h1 : (String.utf8EncodeChar 'a').length = 1 := by decide
    simp only [bytes, List.length_map, List.replicate_succ, List.flatMap_cons,
      List.length_append, h1] at ih ⊢
    omega

theorem contentSize_longLine : contentSize (longLine ++ ['\n']) = 70000 := by
  unfold contentSize
  rw [content_longLine]
  exact bytes_replicate 70000

theorem tooLong_longLine : tooLong false (longLine ++ ['\n']) = true := by
  unfold tooLong
  rw [List.getLast?_concat, if_pos rfl, contentSize_longLine]
  decide

theorem token_longLine : token (longLine ++ ['\n']) = String.mk longLine := by
  unfold token
  rw [content_longLine]
  have : longLine.getLast? = some 'a' := by
    unfold longLine
    rw [List.getLast?_replicate]
    rfl
  unfold dropCR
  rw [this, if_neg (by decide)]

/-- The sample decoder rejects the long line. -/
theorem decodes_longLine :
    decodes (sampleWorld sinkOk (.fail "unused") none) (longLine ++ ['\n']) = false := by
  have hne : ∀ t : String, t.length < 70000 → (String.mk longLine == t) = false := by
    intro t ht
    apply beq_false_of_ne
    intro h
    have hl := congrArg String.length h
    have : (String.mk longLine).length = 70000 := by
      show longLine.length = 70000
      exact List.length_replicate _ _
    omega
  have hlook : sampleLines.lookup (String.mk longLine) = none := by
    unfold sampleLines
    simp only [List.lookup, hne "line X" (by decide), hne "line Y" (by decide),
      hne "line Z" (by decide), hne "line K" (by decide)]
  unfold decodes
  rw [token_longLine]
  show (match sampleLines.lookup (String.mk longLine) with
    | some m => (Except.ok m : Except String Message)
    | none => .error "invalid character").isOk = false
  rw [hlook]
  rfl

theorem rawLines_bodyLong :
    rawLines bodyLong.data.data =
      ["line Y".data ++ ['\n'], longLine ++ ['\n'], "line Z".data ++ ['\n']] := by
  show rawLines ("line Y".data ++ '\n' :: (longLine ++ '\n' :: ("line Z".data ++ '\n' :: []))) = _
  rw [rawLines_terminated _ _ (by decide), rawLines_terminated _ _ longLine_no_newline,
    rawLines_terminated _ _ (by decide), rawLines_nil]

theorem NewScanner_bodyLong : NewScanner bodyLong = ⟨["line Y"], some ErrTooLong⟩ := by
  unfold NewScanner
  rw [rawLines_bodyLong]
  have h1 : tooLong false ("line Y".data ++ ['\n']) = false := by decide
  simp only [scanTokens, bodyLong, List.takeWhile_cons, h1, tooLong_longLine, List.any_cons,
    Bool.not_false, Bool.not_true, if_true, Bool.or_true, Bool.true_or, List.map_cons,
    List.map_nil]
  decide

theorem removeUndecodable_bodyLong :
    removeUndecodable (sampleWorld sinkOk (.fail "unused") none) bodyLong = bodyShort := by
  unfold removeUndecodable
  rw [rawLines_bodyLong]
  have h1 : decodes (sampleWorld sinkOk (.fail "unused") none) ("line Y".data ++ ['\n']) = true := by
    decide
  have h3 : decodes (sampleWorld sinkOk (.fail "unused") none) ("line Z".data ++ ['\n']) = true := by
    decide
  simp only [List.filter_cons, h1, h3, decodes_longLine, if_true, List.filter_nil]
  decide

/-- C8 fails as stated: `bodyLong` has a line of 70000 letters between the lines of `eventY`
and `eventZ`; the line does not decode, and the body without it is `bodyShort`; on
`bodyLong` the scan stops at that line and `notify` receives `eventY` only, on `bodyShort`
it receives `eventY` and `eventZ`. -/
theorem fetchCachedMsg_long_line_stops_scan :
    contentSize (longLine ++ ['\n']) = 70000 ∧
      decodes (sampleWorld sinkOk (.fail "unused") none) (longLine ++ ['\n']) = false ∧
      removeUndecodable (sampleWorld sinkOk (.fail "unused") none) bodyLong = bodyShort ∧
      (fetchCachedMsg ((sampleWorld sinkOk (.fail "unused") none).answering bodyLong)
        sampleConfig stateX).state.notifyCalls = [eventY] ∧
      (fetchCachedMsg ((sampleWorld sinkOk (.fail "unused") none).answering bodyShort)
        sampleConfig stateX).state.notifyCalls = [eventY, eventZ] := by
  refine ⟨contentSize_longLine, decodes_longLine, removeUndecodable_bodyLong, ?_, by decide⟩
  rw [fetchCachedMsg_answering _ _ _ _ rfl, NewScanner_bodyLong]
  decide

/-! ## The authorization header (claim C5) -/

theorem append_ne_empty (a b : String) (ha : a ≠ "") : a ++ b ≠ "" := by
  intro h
  have hlen := congrArg String.length h
  simp only [String.length_append] at hlen
  have hzero : a.length = 0 := by
    have : ("" : String).length = 0 := rfl
    omega
  apply ha
  cases a with
  | mk data =>
    cases data with
    | nil => rfl
    | cons c cs => simp [String.length] at hzero

/-- The header chosen when a token is set. -/
theorem authorizationHeader_token (c : config) (h : c.Token ≠ "") :
    authorizationHeader c = "Bearer " ++ c.Token := by
  simp [authorizationHeader, h]

/-- The header chosen when no token is set and both a user name and a password are. -/
theorem authorizationHeader_basic (c : config) (h : c.Token = "") (hu : c.Username ≠ "")
    (hp : c.Password ≠ "") :
    authorizationHeader c =
      "Basic " ++ EncodeToString (bytes (c.Username ++ ":" ++ c.Password)) := by
  simp [authorizationHeader, h, hu, hp]

/-- No header is chosen when no token is set and the user name or the password is missing. -/
theorem authorizationHeader_none (c : config) (h : c.Token = "")
    (hup : c.Username = "" ∨ c.Password = "") :
    authorizationHeader c = "" := by
  rcases hup with hu | hp
  · simp [authorizationHeader, h, hu]
  · simp [authorizationHeader, h, hp]

/-- The header set that an accepted configuration ends with. -/
theorem LoadConfig_header (env : Env) (configFile : String) (c cfg : config)
    (h : LoadConfig env configFile c = .ok cfg) :
    cfg.Header =
      if authorizationHeader cfg != "" then
        [("Authorization", [authorizationHeader cfg]), ("User-Agent", [cfg.UserAgent])]
      else
        [("User-Agent", [cfg.UserAgent])] := by
  have fin : ∀ c2 : config,
      (if (authorizationHeader c2 != "") = true then
        (Except.ok { c2 with Header :=
          [("Authorization", [authorizationHeader c2]), ("User-Agent", [c2.UserAgent])] } :
            Except String config)
      else
        Except.ok { c2 with Header := [("User-Agent", [c2.UserAgent])] }) = .ok cfg →
      cfg.Header =
        if authorizationHeader cfg != "" then
          [("Authorization", [authorizationHeader cfg]), ("User-Agent", [cfg.UserAgent])]
        else
          [("User-Agent", [cfg.UserAgent])] := by
    intro c2 h2
    by_cases hne : (authorizationHeader c2 != "") = true
    · rw [if_pos hne] at h2
      injection h2 with h2
      subst h2
      show _ = if (authorizationHeader c2 != "") = true then
        [("Authorization", [authorizationHeader c2]), ("User-Agent", [c2.UserAgent])]
        else [("User-Agent", [c2.UserAgent])]
      rw [if_pos hne]
    · rw [if_neg hne] at h2
      injection h2 with h2
      subst h2
      show _ = if (authorizationHeader c2 != "") = true then
        [("Authorization", [authorizationHeader c2]), ("User-Agent", [c2.UserAgent])]
        else [("User-Agent", [c2.UserAgent])]
      rw [if_neg hne]
  unfold LoadConfig at h
  cases hO : env.Open configFile with
  | some e => rw [hO] at h; cases h
  | none =>
    rw [hO] at h
    cases hD : env.Decode configFile c with
    | error e => rw [hD] at h; cases h
    | ok c1 =>
      rw [hD] at h
      dsimp only at h
      by_cases hc : (c1.CacheDir == "") = true
      · rw [if_pos hc] at h
        cases hU : env.UserCacheDir with
        | error e => rw [hU] at h; cases h
        | ok dir =>
          rw [hU] at h
          dsimp only at h
          cases hM : env.MkdirAll (env.Join dir "ntfy-notify") with
          | some e => rw [hM] at h; cases h
          | none =>
            rw [hM] at h
            exact fin _ h
      · rw [if_neg hc] at h
        dsimp only at h
        cases hM : env.MkdirAll c1.CacheDir with
        | some e => rw [hM] at h; cases h
        | none =>
          rw [hM] at h
          exact fin _ h

/-- C5: for every configuration accepted by `LoadConfig`: with a token (with or without user
name and password) the `Authorization` header is the single value `Bearer ` followed by the
token; with no token but a user name and a password it is the single value `Basic ` followed
by the standard base64 encoding of `username:password`; with none of the three the header
set has no `Authorization` entry, and the same holds whenever the token is missing and the
user name or the password is. -/
theorem LoadConfig_authorization (env : Env) (configFile : String) (c cfg : config)
    (h : LoadConfig env configFile c = .ok cfg) :
    (cfg.Token ≠ "" →
        List.lookup "Authorization" cfg.Header = some ["Bearer " ++ cfg.Token]) ∧
      (cfg.Token = "" → cfg.Username ≠ "" → cfg.Password ≠ "" →
        List.lookup "Authorization" cfg.Header =
          some ["Basic " ++ EncodeToString (bytes (cfg.Username ++ ":" ++ cfg.Password))]) ∧
      (cfg.Token = "" → cfg.Username = "" → cfg.Password = "" →
        List.lookup "Authorization" cfg.Header = none) ∧
      (cfg.Token = "" → (cfg.Username = "" ∨ cfg.Password = "") →
        List.lookup "Authorization" cfg.Header = none) := by
  have hh := LoadConfig_header env configFile c cfg h
  have hkey : ("Authorization" == "User-Agent") = false := by decide
  have hnone : ∀ hup : cfg.Token = "" ∧ (cfg.Username = "" ∨ cfg.Password = ""),
      List.lookup "Authorization" cfg.Header = none := by
    intro hup
    rw [hh, authorizationHeader_none cfg hup.1 hup.2]
    simp [List.lookup, hkey]
  refine ⟨?_, ?_, ?_, ?_⟩
  · intro ht
    have hne : authorizationHeader cfg ≠ "" := by
      rw [authorizationHeader_token cfg ht]
      exact append_ne_empty _ _ (by decide)
    rw [hh]
    simp only [bne_iff_ne, ne_eq, hne, not_false_eq_true, if_true]
    rw [authorizationHeader_token cfg ht]
    simp [List.lookup]
  · intro ht hu hp
    have hne : authorizationHeader cfg ≠ "" := by
      rw [authorizationHeader_basic cfg ht hu hp]
      exact append_ne_empty _ _ (by decide)
    rw [hh]
    simp only [bne_iff_ne, ne_eq, hne, not_false_eq_true, if_true]
    rw [authorizationHeader_basic cfg ht hu hp]
    simp [List.lookup]
  · intro ht hu _
    exact hnone ⟨ht, Or.inl hu⟩
  · intro ht hup
    exact hnone ⟨ht, hup⟩

/-- C5 at a concrete input: the configuration file of `sampleWorld` sets a token, and the
accepted configuration carries the bearer header. -/
theorem LoadConfig_authorization_witness :
    LoadConfig (sampleWorld sinkOk (.fail "unused") none) "config.yml" Config
        = .ok sampleConfig ∧
      List.lookup "Authorization" sampleConfig.Header = some ["Bearer tk_sample"] :=
  ⟨rfl,
    (LoadConfig_authorization (sampleWorld sinkOk (.fail "unused") none) "config.yml" Config
      sampleConfig rfl).1 (by decide)⟩

/-- The base64 encoding on the usual example. -/
theorem EncodeToString_sample :
    EncodeToString (bytes "Aladdin:open sesame") = "QWxhZGRpbjpvcGVuIHNlc2FtZQ==" := by
  decide

/-! ## The heartbeat period (claim C10) -/

/-- For every signed 32-bit keep-alive value the read-deadline window is exactly that many
seconds. -/
theorem pongWait_exact (k : Int) (h1 : -2147483648 ≤ k) (h2 : k ≤ 2147483647) :
    pongWait k = k * 1000000000 := by
  unfold pongWait Second wrapInt64
  omega

/-- Up to 1024819115 seconds no product leaves the 64-bit range: the read-deadline window
is the keep-alive interval and the heartbeat period is nine tenths of it. -/
theorem pingPeriod_in_range (k : Int) (h1 : 1 ≤ k) (h2 : k ≤ 1024819115) :
    pongWait k = k * 1000000000 ∧ pingPeriod k = k * 900000000 := by
  have e1 : wrapInt64 k = k := by
    unfold wrapInt64
    omega
  have e2 : wrapInt64 (k * 1000000000) = k * 1000000000 := by
    unfold wrapInt64
    omega
  have e3 : wrapInt64 (k * 1000000000 * 9) = k * 1000000000 * 9 := by
    unfold wrapInt64
    omega
  have hp : pongWait k = k * 1000000000 := by
    unfold pongWait Second
    rw [e1, e2]
  refine ⟨hp, ?_⟩
  unfold pingPeriod
  rw [hp, e3, Int.tdiv_eq_ediv (by omega) (by omega)]
  omega

/-- C10: at the keep-alive value 1024819116, a signed 32-bit number of seconds that is at
least 1, the read-deadline window is still the full interval, but `pongWait * 9` leaves the
64-bit range and the heartbeat period comes out negative instead of nine tenths of the
interval; at the largest 32-bit value it is positive and still not nine tenths. -/
theorem pingPeriod_overflow :
    (1 : Int) ≤ 1024819116 ∧ (1024819116 : Int) ≤ 2147483647 ∧
      pongWait 1024819116 = 1024819116 * 1000000000 ∧
      pingPeriod 1024819116 = -922337202970955161 ∧
      pingPeriod 1024819116 ≠ 1024819116 * 900000000 ∧
      pingPeriod 2147483647 = 88060874929044838 ∧
      pingPeriod 2147483647 ≠ 2147483647 * 900000000 := by
  decide

/-- With that keep-alive value `time.NewTicker` receives a negative period and panics:
`main` ends right after the connection is made, before any `defer` statement. -/
theorem main_ticker_panic_sample :
    (main longKeepAliveWorld "config.yml" ⟨[], [.done]⟩).2 = some .tickerPanic ∧
      (main longKeepAliveWorld "config.yml" ⟨[], [.done]⟩).1.writes = [] ∧
      (main longKeepAliveWorld "config.yml" ⟨[], [.done]⟩).1.closed = false := by
  decide

/-! ## The live read loop (claim C7) -/

/-- While every read delivers a frame the loop goes on: all frames are forwarded in order
and `done` is untouched. -/
theorem readLoop_frames (frames : List Message) :
    ∀ r : Reader,
      readLoop (frames.map Except.ok) r =
        { log := r.log ++ frames.map (fun _ => ⟨.debug, "received ws message"⟩)
          sent := r.sent ++ frames
          done := r.done } := by
  induction frames with
  | nil => intro r; simp [readLoop]
  | cons m ms ih =>
    intro r
    rw [List.map_cons, readLoop, ih]
    simp

/-- The loop up to and including the first failing read. -/
theorem readLoop_error (frames : List Message) (err : ReadErr)
    (rest : List (Except ReadErr Message)) :
    ∀ r : Reader,
      readLoop (frames.map Except.ok ++ .error err :: rest) r =
        { log := r.log ++ frames.map (fun _ => ⟨.debug, "received ws message"⟩) ++
            (if IsUnexpectedCloseError err [CloseNormalClosure] then
              [⟨.error, "cannot read ntfy message"⟩, ⟨.debug, err.text⟩]
            else []) ++ [⟨.info, "ntfy closed connection"⟩]
          sent := r.sent ++ frames
          done := true } := by
  induction frames with
  | nil =>
    intro r
    rw [List.map_nil, List.nil_append, readLoop]
    by_cases hu : IsUnexpectedCloseError err [CloseNormalClosure] = true <;> simp [hu]
  | cons m ms ih =>
    intro r
    rw [List.map_cons, List.cons_append, readLoop, ih]
    simp

/-- What the read loop does at the first failing read of any kind, a frame that does not
decode included: it ends and raises `done`; the frames before it are forwarded in order and
nothing after it is; an error is logged only for a close error with a code other than normal
closure, so not for a decode failure; and as long as no read fails the loop goes on without
raising `done`. -/
theorem readLoop_stops_at_first_error (frames : List Message) (err : ReadErr)
    (rest : List (Except ReadErr Message)) (r : Reader) :
    (readLoop (frames.map Except.ok ++ .error err :: rest) r).done = true ∧
      (readLoop (frames.map Except.ok ++ .error err :: rest) r).sent = r.sent ++ frames ∧
      (readLoop (frames.map Except.ok ++ .error err :: rest) r).log =
        r.log ++ frames.map (fun _ => ⟨.debug, "received ws message"⟩) ++
          (if IsUnexpectedCloseError err [CloseNormalClosure] then
            [⟨.error, "cannot read ntfy message"⟩, ⟨.debug, err.text⟩]
          else []) ++ [⟨.info, "ntfy closed connection"⟩] ∧
      (∀ t, IsUnexpectedCloseError (.decode t) [CloseNormalClosure] = false) ∧
      (readLoop (frames.map Except.ok) r).done = r.done ∧
      (readLoop (frames.map Except.ok) r).sent = r.sent ++ frames := by
  rw [readLoop_error, readLoop_frames]
  exact ⟨rfl, rfl, rfl, fun _ => rfl, rfl, rfl⟩

/-- C7: on a healthy connection a frame that does not decode, followed by the well-formed
frame of `eventY`, should be logged and skipped and `eventY` forwarded; the read loop
instead ends at the bad frame: `done` is raised, `eventY` is not forwarded, and the only log
line is `ntfy closed connection`, no error. -/
theorem readLoop_decode_failure_ends_loop :
    readLoop [.error (.decode "invalid character"), .ok eventY] ⟨[], [], false⟩ =
      ⟨[⟨.info, "ntfy closed connection"⟩], [], true⟩ := by
  decide

/-- The scanner loop on a body with two undecodable lines: `notify` receives `eventY` and
`eventZ`, the count is 2 and the checkpoint ends at `eventZ`. -/
theorem scanBody_sample :
    (scanBody (sampleWorld sinkOk (.fail "unused") none)
        ⟨["line X", "not json", "line Y", "", "line Z"], none⟩ (stateX, 0)).1.notifyCalls
        = [eventY, eventZ] ∧
      (scanBody (sampleWorld sinkOk (.fail "unused") none)
        ⟨["line X", "not json", "line Y", "", "line Z"], none⟩ (stateX, 0)).2 = 2 ∧
      (scanBody (sampleWorld sinkOk (.fail "unused") none)
        ⟨["line X", "not json", "line Y", "", "line Z"], none⟩ (stateX, 0)).1.lastId = "Z" := by
  decide

/-! ## Saving the checkpoint when `main` ends (claim C6) -/

end NtfyNotify
